import Mathlib

/-!
Verification of the Yatube social-network application (posts, groups,
comments, follows) against its natural-language specification.

The repository ships its Django test suite (`posts/tests/test_forms.py`,
`posts/tests/test_views.py`) and `posts/admin.py`; the models, forms and
view functions they exercise are not part of the shipped sources, so the
operations below are modelled from the specification's description of the
data model (spec §3), the feed/listing logic (spec §4.1), the write
operations (spec §4.2) and the page cache (spec §4.3).

Users, groups, posts and comments are identified by natural numbers;
timestamps are a logical clock that advances on each write.
-/

namespace Yatube

/-- Modelled from the spec (§3, Post): the missing `posts/models.py` Post
model. Fields: required author, required non-empty text, creation
timestamp used for newest-first ordering, optional group reference,
optional image attachment (stored as its media path). -/
structure Post where
  id : Nat
  author : Nat
  text : String
  group : Option Nat
  image : Option String
  pubDate : Nat
deriving DecidableEq, Repr

/-- Modelled from the spec (§3, Comment): the missing Comment model.
Belongs to exactly one post, authored by a user, text plus creation
timestamp. -/
structure Comment where
  id : Nat
  postId : Nat
  author : Nat
  text : String
  created : Nat
deriving DecidableEq, Repr

/-- Modelled from the spec (§3, Follow): the missing Follow model, a
directed edge (user → author) meaning "user follows author's posts". -/
structure Follow where
  user : Nat
  author : Nat
deriving DecidableEq, Repr

/-- Routes that an unauthenticated write is redirected away from; the
login redirect carries the attempted route as its return parameter
(spec §6: "redirect to a login path with a `next` return parameter"). -/
inductive Route where
  | postCreate : Route
  | postEdit : Nat → Route
  | addComment : Nat → Route
  | profileFollow : Nat → Route
  | profileUnfollow : Nat → Route
deriving DecidableEq, Repr

/-- Modelled from the spec (§4.2, §6, §7): the observable outcome of a
write operation — a redirect to a profile page, a redirect to a post's
detail page, a redirect to the login path carrying the attempted route
as the `next` parameter, a re-rendered form with validation errors, or
the framework's not-found response. -/
inductive Response where
  | redirectProfile : Nat → Response
  | redirectDetail : Nat → Response
  | redirectLogin : Route → Response
  | formError : Response
  | notFound : Response
deriving DecidableEq, Repr

/-- Modelled from the spec (§2, §4.3): the persistent store (posts,
comments, follow edges, registered users and groups), the home-page
cache (holding the rendered page body, here the rendered first page of
the global feed), fresh-id supply and the creation clock. Records are
appended in insertion order; listing queries sort. -/
structure State where
  posts : List Post
  comments : List Comment
  follows : List Follow
  users : List Nat
  groups : List Nat
  cache : Option (List Post)
  nextId : Nat
  clock : Nat
deriving DecidableEq, Repr

/-- Newest-first ordering on posts (spec §4.1: "ordered by creation time
descending"). -/
def newestFirst (a b : Post) : Prop := b.pubDate ≤ a.pubDate

instance : DecidableRel newestFirst := fun a b => Nat.decLe b.pubDate a.pubDate

instance : IsTotal Post newestFirst :=
  ⟨fun a b => (Nat.le_total a.pubDate b.pubDate).symm⟩

instance : IsTrans Post newestFirst :=
  ⟨fun _ _ _ hab hbc => Nat.le_trans hbc hab⟩

/-- Sort a query result newest-first, as the ORM's
`order_by('-pub_date')` default ordering does (spec §3, §4.1). -/
def sortNewest (ps : List Post) : List Post :=
  List.insertionSort newestFirst ps

/-- Modelled from the spec (§4.1): the four listing scopes — global
feed, one group's feed, one author's profile feed, and the follow feed
of one requesting user. -/
inductive Scope where
  | global : Scope
  | group : Nat → Scope
  | profile : Nat → Scope
  | followFeed : Nat → Scope
deriving DecidableEq, Repr

/-- Modelled from the spec (§4.1): the set of posts in a scope — all
posts, posts in one group, posts by one author, or posts by the authors
the requesting user follows (empty follow set gives an empty feed). -/
def scopePosts (st : State) : Scope → List Post
  | Scope.global => st.posts
  | Scope.group g => st.posts.filter (fun p => p.group = some g)
  | Scope.profile u => st.posts.filter (fun p => p.author = u)
  | Scope.followFeed u =>
      st.posts.filter (fun p => st.follows.any
        (fun f => f.user = u && f.author == p.author))

/-- Fixed page size of the paginator (spec §4.1: "page size = 10"). -/
def pageSize : Nat := 10

/-- Modelled from the spec (§4.1): one listing request — posts of the
scope, ordered newest-first, sliced into fixed-size pages of 10; `n` is
the 1-based requested page number. -/
def listing (st : State) (sc : Scope) (n : Nat) : List Post :=
  ((sortNewest (scopePosts st sc)).drop (pageSize * (n - 1))).take pageSize

/-- Media path of an uploaded image: stored under a content path derived
from the original filename (spec §6; the tests observe
`posts/<filename>`). -/
def mediaPath (name : String) : String := "posts/" ++ name

/-- Modelled from the spec (§4.2 Create Post, §7): the missing
create-post view. Anonymous actors are redirected to login with the
create route as return parameter and no record is created; blank text
fails validation, re-rendering the form with no record created; on
success a post is appended with the submitted text, group and image
(stored under its media path), stamped with the creation clock, and the
response redirects to the author's profile. -/
def createPost (st : State) (actor : Option Nat) (text : String)
    (group : Option Nat) (image : Option String) : State × Response :=
  match actor with
  | none => (st, Response.redirectLogin Route.postCreate)
  | some u =>
    if text = "" then (st, Response.formError)
    else
      let p : Post :=
        { id := st.nextId, author := u, text := text, group := group,
          image := image.map mediaPath, pubDate := st.clock }
      ({ st with posts := st.posts ++ [p], nextId := st.nextId + 1,
                 clock := st.clock + 1 },
       Response.redirectProfile u)

/-- Modelled from the spec (§4.2 Edit Post, §3, §7): the missing
post-edit view. Anonymous or non-author actors are denied and
redirected to the authentication entry point with no mutation; a
missing post is a not-found; blank text fails validation; on success
the post's text, group and image are updated in place (author and id
untouched) and the response redirects to the post's detail page. -/
def editPost (st : State) (actor : Option Nat) (pid : Nat) (text : String)
    (group : Option Nat) (image : Option String) : State × Response :=
  match actor with
  | none => (st, Response.redirectLogin (Route.postEdit pid))
  | some u =>
    match st.posts.find? (fun p => p.id = pid) with
    | none => (st, Response.notFound)
    | some p =>
      if p.author ≠ u then
        (st, Response.redirectLogin (Route.postEdit pid))
      else if text = "" then (st, Response.formError)
      else
        ({ st with posts := st.posts.map (fun q =>
              if q.id = pid then
                { q with text := text, group := group,
                         image := image.map mediaPath }
              else q) },
         Response.redirectDetail pid)

/-- Modelled from the spec (§4.2 Create Comment, §7): the missing
add-comment view. Requires authentication (anonymous actors are
redirected to login with the comment route as return parameter, no
record created); the target post must exist; blank text fails
validation with no record created; on success a comment associated with
the target post and the acting user is appended, stamped with the
creation clock, and the response redirects to the post's detail page. -/
def addComment (st : State) (actor : Option Nat) (pid : Nat)
    (text : String) : State × Response :=
  match actor with
  | none => (st, Response.redirectLogin (Route.addComment pid))
  | some u =>
    match st.posts.find? (fun p => p.id = pid) with
    | none => (st, Response.notFound)
    | some _ =>
      if text = "" then (st, Response.formError)
      else
        let c : Comment :=
          { id := st.nextId, postId := pid, author := u, text := text,
            created := st.clock }
        ({ st with comments := st.comments ++ [c],
                   nextId := st.nextId + 1, clock := st.clock + 1 },
         Response.redirectDetail pid)

/-- Modelled from the spec (§4.2 Follow/Unfollow): the missing
profile-follow view. Requires authentication; creates a (user, author)
edge if authenticated and not already following, then shows the
author's profile. -/
def followOp (st : State) (actor : Option Nat) (author : Nat) :
    State × Response :=
  match actor with
  | none => (st, Response.redirectLogin (Route.profileFollow author))
  | some u =>
    if (Follow.mk u author) ∈ st.follows then
      (st, Response.redirectProfile author)
    else
      ({ st with follows := st.follows ++ [Follow.mk u author] },
       Response.redirectProfile author)

/-- Modelled from the spec (§4.2 Follow/Unfollow): the missing
profile-unfollow view. Requires authentication; deletes the matching
(user, author) edge, a no-op without error when no such edge exists. -/
def unfollowOp (st : State) (actor : Option Nat) (author : Nat) :
    State × Response :=
  match actor with
  | none => (st, Response.redirectLogin (Route.profileUnfollow author))
  | some u =>
    let kept := st.follows.filter fun f => ¬(f.user = u ∧ f.author = author)
    ({ st with follows := kept }, Response.redirectProfile author)

/-- Modelled from the spec (§4.3): the rendered home-page body — the
first page of the global feed. -/
def renderHome (st : State) : List Post := listing st Scope.global 1

/-- Modelled from the spec (§4.3): a request to the home route. Served
from the page cache when present; otherwise the page is rendered from
the store and cached. No write invalidates it. -/
def getHome (st : State) : State × List Post :=
  match st.cache with
  | some body => (st, body)
  | none =>
      let body := renderHome st
      ({ st with cache := some body }, body)

/-- Modelled from the spec (§4.3): the manual cache-clear operation —
the only invalidation. -/
def cacheClear (st : State) : State := { st with cache := none }

/-- One operation of the system, as offered by its HTTP routes
(spec §6). Read-only listing routes other than the cached home page do
not change the state and are omitted from the step alphabet. -/
inductive Op where
  | createPost : Option Nat → String → Option Nat → Option String → Op
  | editPost : Option Nat → Nat → String → Option Nat → Option String → Op
  | addComment : Option Nat → Nat → String → Op
  | follow : Option Nat → Nat → Op
  | unfollow : Option Nat → Nat → Op
  | home : Op
  | clearCache : Op
deriving DecidableEq, Repr

/-- State transition of one operation. -/
def step (st : State) : Op → State
  | Op.createPost a t g i => (createPost st a t g i).1
  | Op.editPost a pid t g i => (editPost st a pid t g i).1
  | Op.addComment a pid t => (addComment st a pid t).1
  | Op.follow a au => (followOp st a au).1
  | Op.unfollow a au => (unfollowOp st a au).1
  | Op.home => (getHome st).1
  | Op.clearCache => cacheClear st

/-- The empty initial state. -/
def init : State :=
  { posts := [], comments := [], follows := [], users := [], groups := [],
    cache := none, nextId := 0, clock := 0 }

/-- State reached by a sequence of operations from the empty store. -/
def run (ops : List Op) : State := ops.foldl step init

/-! ### Concrete states used to witness satisfiability of hypotheses -/

/-- A concrete stored post. -/
def post0 : Post :=
  { id := 0, author := 1, text := "t", group := some 5, image := none,
    pubDate := 0 }

/-- A concrete store: one post by user 1 in group 5, and user 2 follows
user 1. -/
def st1 : State :=
  { posts := [post0], comments := [], follows := [Follow.mk 2 1],
    users := [1, 2], groups := [5], cache := none, nextId := 1, clock := 1 }

/-- Eleven concrete posts, one per creation instant. -/
def manyPosts : List Post :=
  (List.range 11).map fun i =>
    { id := i, author := 1, text := "t", group := some 5, image := none,
      pubDate := i }

/-- A concrete store holding more than one page of posts. -/
def stMany : State :=
  { posts := manyPosts, comments := [], follows := [], users := [1],
    groups := [5], cache := none, nextId := 11, clock := 11 }

/-! ### Helper lemmas about sorting and listing -/

/-- Sorting a query result is a permutation of it. -/
theorem sortNewest_perm (l : List Post) : List.Perm (sortNewest l) l :=
  List.perm_insertionSort _ l

/-- Sorting a query result sorts it newest-first. -/
theorem sortNewest_sorted (l : List Post) :
    List.Sorted newestFirst (sortNewest l) :=
  List.sorted_insertionSort _ l

/-- A record strictly newer than everything else comes out first. -/
theorem head_sortNewest_append (l : List Post) (p : Post)
    (h : ∀ q ∈ l, q.pubDate < p.pubDate) :
    (sortNewest (l ++ [p])).head? = some p := by
  have hperm := sortNewest_perm (l ++ [p])
  have hmem : p ∈ sortNewest (l ++ [p]) := hperm.mem_iff.mpr (by simp)
  have hsort := sortNewest_sorted (l ++ [p])
  cases hs : sortNewest (l ++ [p]) with
  | nil => rw [hs] at hmem; cases hmem
  | cons a rest =>
    rw [hs] at hmem hsort hperm
    have ha : a ∈ l ++ [p] := hperm.mem_iff.mp (List.mem_cons_self a rest)
    rcases List.mem_append.mp ha with hal | hap
    · rcases List.mem_cons.mp hmem with hpa | hpr
      · exact absurd (h a hal) (by rw [hpa]; exact Nat.lt_irrefl _)
      · have hrel := List.rel_of_sorted_cons hsort p hpr
        have hlt := h a hal
        exact absurd (Nat.lt_of_lt_of_le hlt hrel) (Nat.lt_irrefl _)
    · simp only [List.mem_singleton] at hap
      rw [hap]
      rfl

/-- The head of a page-sized slice is the head of the list. -/
theorem head?_take_pageSize (l : List Post) :
    (l.take pageSize).head? = l.head? := by
  cases l <;> rfl

/-- Every record on a listed page is in the scope it was listed from. -/
theorem mem_scope_of_mem_listing (st : State) (sc : Scope) (n : Nat)
    (q : Post) (hq : q ∈ listing st sc n) : q ∈ scopePosts st sc := by
  unfold listing at hq
  have h1 := (List.take_sublist _ _).subset hq
  have h2 := (List.drop_sublist _ _).subset h1
  exact (sortNewest_perm _).subset h2

/-! ### Claim C5 -/

/-- Claim C5: an unauthenticated actor attempting a write (create post
or create comment) creates no record — the whole store is unchanged —
and is redirected to the login path with the `next` parameter set to
the attempted route. -/
theorem unauth_write_rejected (st : State) (t tc : String) (g : Option Nat)
    (img : Option String) (pid : Nat) :
    createPost st none t g img
        = (st, Response.redirectLogin Route.postCreate) ∧
    addComment st none pid tc
        = (st, Response.redirectLogin (Route.addComment pid)) :=
  ⟨rfl, rfl⟩

/-! ### Claim C9 -/

/-- Claim C9: a create-post or create-comment submission with blank
text fails validation: the form is re-rendered with errors and the
store is unchanged, so no record is created. -/
theorem blank_text_rejected (st : State) (u pid : Nat) (g : Option Nat)
    (img : Option String)
    (hp : (st.posts.find? fun p => p.id = pid).isSome) :
    createPost st (some u) "" g img = (st, Response.formError) ∧
    addComment st (some u) pid ("") = (st, Response.formError) := by
  constructor
  · simp [createPost]
  · obtain ⟨p, hp'⟩ := Option.isSome_iff_exists.mp hp
    simp [addComment, hp']

/-- Witness for C9 at the concrete store `st1`. -/
theorem blank_text_rejected_witness :
    createPost st1 (some 1) "" (some 5) none = (st1, Response.formError) ∧
    addComment st1 (some 1) 0 "" = (st1, Response.formError) :=
  blank_text_rejected st1 1 0 (some 5) none (by decide)

/-! ### Claim C1 -/

/-- Claim C1 as stated is false at a concrete input: the stored post's
image field is the media path `posts/small.gif` derived from the
submitted filename `small.gif`, not the submitted value itself. -/
theorem createPost_image_not_submitted_value :
    (createPost st1 (some 1) "text" (some 5) (some ("small.gif"))).1.posts
      = st1.posts ++ [{ id := 1, author := 1, text := "text",
                        group := some 5, image := some ("posts/small.gif"),
                        pubDate := 1 }] ∧
    (some ("posts/small.gif") : Option String) ≠ some ("small.gif") :=
  ⟨rfl, by decide⟩

/-- Claim C1 (amended): an authenticated create-post with non-empty
text, a valid group and an image file grows the post count by exactly
1; the stored post's text, author and group equal the submitted values
and its image is the submitted file's media path; the response
redirects to the author's profile. -/
theorem createPost_valid_spec (st : State) (u g : Nat) (t img : String)
    (ht : ¬ t = "") (_hg : g ∈ st.groups) :
    (createPost st (some u) t (some g) (some img)).1.posts.length
        = st.posts.length + 1 ∧
    (∃ p : Post,
        (createPost st (some u) t (some g) (some img)).1.posts
          = st.posts ++ [p] ∧
        p.text = t ∧ p.author = u ∧ p.group = some g ∧
        p.image = some (mediaPath img)) ∧
    (createPost st (some u) t (some g) (some img)).2
        = Response.redirectProfile u := by
  refine ⟨?_, ⟨⟨st.nextId, u, t, some g, some (mediaPath img), st.clock⟩,
    ?_, rfl, rfl, rfl, rfl⟩, ?_⟩ <;> simp [createPost, ht]

/-- Witness for the amended C1 at the concrete store `st1`. -/
theorem createPost_valid_spec_witness :
    (createPost st1 (some 1) "text" (some 5) (some ("small.gif"))).1.posts.length
      = st1.posts.length + 1 :=
  (createPost_valid_spec st1 1 5 "text" "small.gif" (by decide) (by decide)).1

/-! ### Claim C10 -/

/-- Claim C10: an authenticated user successfully commenting on an
existing post is redirected to that post's detail page, the comment
count grows by exactly 1, and the new comment's post, author and text
are the target post, the acting user and the submitted text. -/
theorem addComment_valid_spec (st : State) (u pid : Nat) (t : String)
    (ht : ¬ t = "") (hp : (st.posts.find? fun p => p.id = pid).isSome) :
    (addComment st (some u) pid t).2 = Response.redirectDetail pid ∧
    (addComment st (some u) pid t).1.comments.length
        = st.comments.length + 1 ∧
    ∃ c : Comment, (addComment st (some u) pid t).1.comments
        = st.comments ++ [c] ∧ c.postId = pid ∧ c.author = u ∧ c.text = t := by
  obtain ⟨p, hp'⟩ := Option.isSome_iff_exists.mp hp
  refine ⟨?_, ?_, ⟨st.nextId, pid, u, t, st.clock⟩, ?_, rfl, rfl, rfl⟩ <;>
    simp [addComment, hp', ht]

/-- Witness for C10 at the concrete store `st1`. -/
theorem addComment_valid_spec_witness :
    (addComment st1 (some 1) 0 "hi").2 = Response.redirectDetail 0 :=
  (addComment_valid_spec st1 1 0 "hi" (by decide) (by decide)).1

/-! ### Claim C6 -/

/-- Updating the record matching an id updates what `find?` returns. -/
theorem find?_id_map_update (l : List Post) (pid : Nat) (f : Post → Post)
    (hf : ∀ q, (f q).id = q.id) (p : Post)
    (hp : l.find? (fun q => q.id = pid) = some p) :
    (l.map fun q => if q.id = pid then f q else q).find?
      (fun q => q.id = pid) = some (f p) := by
  induction l with
  | nil => simp at hp
  | cons a rest ih =>
    by_cases ha : a.id = pid
    · rw [List.find?_cons_of_pos _ (by simpa using ha)] at hp
      have hpa : p = a := by injection hp with h; exact h.symm
      subst hpa
      simp only [List.map_cons, if_pos ha]
      exact List.find?_cons_of_pos _ (by simpa using (hf p).trans ha)
    · rw [List.find?_cons_of_neg _ (by simpa using ha)] at hp
      simp only [List.map_cons, if_neg ha]
      rw [List.find?_cons_of_neg _ (by simpa using ha)]
      exact ih hp

/-- Records whose id is not the updated one survive the update. -/
theorem mem_map_update_of_ne (l : List Post) (pid : Nat) (f : Post → Post)
    (q : Post) (hq : q ∈ l) (hne : ¬ q.id = pid) :
    q ∈ l.map fun r => if r.id = pid then f r else r := by
  refine List.mem_map.mpr ⟨q, hq, ?_⟩
  simp [hne]

/-- Claim C6: the original author editing an existing post with valid
data keeps the post count unchanged, leaves every other post in place,
rewrites the edited post's text, group and image to the submitted
values (image stored under its media path) while its author and id are
untouched, and the response redirects to the post's detail page. -/
theorem editPost_by_author (st : State) (u pid : Nat) (t : String)
    (g : Option Nat) (img : Option String) (p : Post)
    (hp : st.posts.find? (fun q => q.id = pid) = some p)
    (hau : p.author = u) (ht : ¬ t = "") :
    (editPost st (some u) pid t g img).1.posts.length = st.posts.length ∧
    (editPost st (some u) pid t g img).1.posts.find? (fun q => q.id = pid)
        = some { p with text := t, group := g, image := img.map mediaPath } ∧
    ({ p with text := t, group := g, image := img.map mediaPath} : Post).author
        = p.author ∧
    ({ p with text := t, group := g, image := img.map mediaPath} : Post).id
        = p.id ∧
    (∀ q ∈ st.posts, ¬ q.id = pid →
        q ∈ (editPost st (some u) pid t g img).1.posts) ∧
    (editPost st (some u) pid t g img).2 = Response.redirectDetail pid := by
  have hposts : (editPost st (some u) pid t g img).1.posts
      = st.posts.map (fun q =>
          if q.id = pid then
            { q with text := t, group := g, image := img.map mediaPath }
          else q) := by
    simp [editPost, hp, hau, ht]
  have hresp : (editPost st (some u) pid t g img).2
      = Response.redirectDetail pid := by
    simp [editPost, hp, hau, ht]
  refine ⟨?_, ?_, rfl, rfl, ?_, hresp⟩
  · rw [hposts]; exact List.length_map _ _
  · rw [hposts]
    exact find?_id_map_update st.posts pid
      (fun q => { q with text := t, group := g, image := img.map mediaPath })
      (fun q => rfl) p hp
  · intro q hq hne
    rw [hposts]
    exact mem_map_update_of_ne st.posts pid _ q hq hne

/-- Witness for C6 at the concrete store `st1`. -/
theorem editPost_by_author_witness :
    (editPost st1 (some 1) 0 "new" none (some ("small2.gif"))).1.posts.length
        = st1.posts.length ∧
    (editPost st1 (some 1) 0 "new" none (some ("small2.gif"))).2
        = Response.redirectDetail 0 :=
  ⟨(editPost_by_author st1 1 0 "new" none (some ("small2.gif")) post0
      (by decide) (by decide) (by decide)).1,
   (editPost_by_author st1 1 0 "new" none (some ("small2.gif")) post0
      (by decide) (by decide) (by decide)).2.2.2.2.2⟩

/-! ### Claim C7 -/

/-- Replacing the follow table by an equal one is the identity. -/
theorem state_eq_of_follows_eq (st : State) (l : List Follow)
    (h : l = st.follows) : ({ st with follows := l } : State) = st := by
  rw [h]

/-- A follow edge matches the removal predicate exactly when it is the
removed edge. -/
theorem follow_match_iff (u a : Nat) (f : Follow) :
    (f.user = u ∧ f.author = a) ↔ f = Follow.mk u a := by
  cases f
  simp [Follow.mk.injEq]

/-- Deleting one present element from a duplicate-free list shrinks its
length by exactly one. -/
theorem length_filter_remove (l : List Follow) (u a : Nat)
    (hnd : l.Nodup) (hin : Follow.mk u a ∈ l) :
    (l.filter fun f => ¬(f.user = u ∧ f.author = a)).length + 1
      = l.length := by
  induction l with
  | nil => cases hin
  | cons b bs ih =>
    have hbn : b ∉ bs := (List.nodup_cons.mp hnd).1
    have hbs : bs.Nodup := (List.nodup_cons.mp hnd).2
    rw [List.filter_cons]
    rcases List.mem_cons.mp hin with hb | hmem
    · subst hb
      have hnone : bs.filter
          (fun f => ¬(f.user = u ∧ f.author = a)) = bs := by
        refine List.filter_eq_self.mpr ?_
        intro f hf
        simp only [decide_eq_true_eq]
        intro hc
        rw [follow_match_iff u a f] at hc
        rw [hc] at hf
        exact hbn hf
      simp only [hnone]
      split
      · rename_i hx
        simp at hx
      · simp
    · have hbne : ¬(b.user = u ∧ b.author = a) := by
        intro hc
        rw [follow_match_iff u a b] at hc
        rw [hc] at hbn
        exact hbn hmem
      have hcond : (decide ¬(b.user = u ∧ b.author = a)) = true := by
        simp only [decide_eq_true_eq]
        exact hbne
      rw [hcond]
      simp only [if_true, List.length_cons]
      have := ih hbs hmem
      omega

/-- Claim C7: for an authenticated user, unfollow on an existing
(user, author) edge deletes it, shrinking the follow-edge count by
exactly 1; when no such edge exists it is a no-op that leaves the
store unchanged; in both cases it answers with a profile redirect, not
an error. -/
theorem unfollow_spec (st : State) (u a : Nat) (hnd : st.follows.Nodup) :
    (Follow.mk u a ∈ st.follows →
        (unfollowOp st (some u) a).1.follows.length + 1
          = st.follows.length) ∧
    (Follow.mk u a ∉ st.follows → (unfollowOp st (some u) a).1 = st) ∧
    (unfollowOp st (some u) a).2 = Response.redirectProfile a := by
  refine ⟨?_, ?_, rfl⟩
  · intro hin
    exact length_filter_remove st.follows u a hnd hin
  · intro hnin
    have hkept : st.follows.filter (fun f => ¬(f.user = u ∧ f.author = a))
        = st.follows := by
      refine List.filter_eq_self.mpr ?_
      intro f hf
      simp only [decide_eq_true_eq]
      intro hc
      rw [follow_match_iff u a f] at hc
      rw [hc] at hf
      exact hnin hf
    exact state_eq_of_follows_eq st _ hkept

/-- Witness for C7 at the concrete store `st1`. -/
theorem unfollow_spec_witness :
    (unfollowOp st1 (some 2) 1).1.follows.length + 1
      = st1.follows.length :=
  (unfollow_spec st1 2 1 (by decide)).1 (by decide)

/-! ### Claim C2 -/

/-- Claim C2: for every scope (global feed, one group's feed, one
author's profile feed, follow feed) and every store, every listed page
is ordered by creation time descending, and when more than
`pageSize` = 10 posts are in scope a listing request returns exactly 10
items on its (first) page. -/
theorem listing_ordered_and_full_page (st : State) (sc : Scope) (n : Nat) :
    List.Sorted newestFirst (listing st sc n) ∧
    (pageSize < (scopePosts st sc).length →
      (listing st sc 1).length = pageSize) := by
  constructor
  · have hs := sortNewest_sorted (scopePosts st sc)
    have hsub : List.Sublist (listing st sc n)
        (sortNewest (scopePosts st sc)) :=
      (List.take_sublist _ _).trans (List.drop_sublist _ _)
    exact List.Pairwise.sublist hsub hs
  · intro h
    unfold listing
    have h0 : pageSize * (1 - 1) = 0 := rfl
    rw [h0, List.drop_zero, List.length_take,
      (sortNewest_perm (scopePosts st sc)).length_eq]
    omega

/-- Witness for C2 at the concrete store `stMany` holding 11 posts. -/
theorem listing_full_page_witness :
    (listing stMany Scope.global 1).length = pageSize :=
  (listing_ordered_and_full_page stMany Scope.global 1).2 (by decide)

/-! ### Claim C8 -/

/-- A duplicate-free list whose members are all one value has at most
one member. -/
theorem length_le_one_of_all_eq {α : Type} (l : List α) (c : α)
    (hnd : l.Nodup) (h : ∀ x ∈ l, x = c) : l.length ≤ 1 := by
  cases l with
  | nil => simp
  | cons x xs =>
    cases xs with
    | nil => simp
    | cons y ys =>
      exfalso
      have hx := h x (by simp)
      have hy := h y (by simp)
      have hxy : x = y := hx.trans hy.symm
      have hxn : x ∉ y :: ys := (List.nodup_cons.mp hnd).1
      exact hxn (by rw [hxy]; exact List.mem_cons_self _ _)

/-- Creating a post never touches the follow table. -/
theorem createPost_follows (st : State) (a : Option Nat) (t : String)
    (g : Option Nat) (i : Option String) :
    (createPost st a t g i).1.follows = st.follows := by
  cases a with
  | none => rfl
  | some u =>
    simp only [createPost]
    split <;> rfl

/-- Editing a post never touches the follow table. -/
theorem editPost_follows (st : State) (a : Option Nat) (pid : Nat)
    (t : String) (g : Option Nat) (i : Option String) :
    (editPost st a pid t g i).1.follows = st.follows := by
  cases a with
  | none => rfl
  | some u =>
    cases hf : st.posts.find? (fun p => p.id = pid) with
    | none => simp [editPost, hf]
    | some p =>
      by_cases h1 : p.author ≠ u
      · simp [editPost, hf, h1]
      · by_cases h2 : t = ""
        · simp [editPost, hf, h1, h2]
        · simp [editPost, hf, h1, h2]

/-- Commenting never touches the follow table. -/
theorem addComment_follows (st : State) (a : Option Nat) (pid : Nat)
    (t : String) :
    (addComment st a pid t).1.follows = st.follows := by
  cases a with
  | none => rfl
  | some u =>
    cases hf : st.posts.find? (fun p => p.id = pid) with
    | none => simp [addComment, hf]
    | some p =>
      by_cases h2 : t = ""
      · simp [addComment, hf, h2]
      · simp [addComment, hf, h2]

/-- A home-page request never touches the follow table. -/
theorem getHome_follows (st : State) :
    (getHome st).1.follows = st.follows := by
  cases hc : st.cache <;> simp [getHome, hc]

/-- Following keeps the follow table duplicate-free: the edge is only
added when it is not already present. -/
theorem followOp_nodup (st : State) (a : Option Nat) (au : Nat)
    (h : st.follows.Nodup) : (followOp st a au).1.follows.Nodup := by
  cases a with
  | none => exact h
  | some u =>
    by_cases hmem : Follow.mk u au ∈ st.follows
    · simpa [followOp, hmem] using h
    · have hres : (followOp st (some u) au).1.follows
          = st.follows ++ [Follow.mk u au] := by simp [followOp, hmem]
      rw [hres]
      refine h.append (List.nodup_singleton _) ?_
      intro x hx hx2
      rw [List.mem_singleton] at hx2
      rw [hx2] at hx
      exact hmem hx

/-- Unfollowing keeps the follow table duplicate-free. -/
theorem unfollowOp_nodup (st : State) (a : Option Nat) (au : Nat)
    (h : st.follows.Nodup) : (unfollowOp st a au).1.follows.Nodup := by
  cases a with
  | none => exact h
  | some u => exact h.filter _

/-- Every operation keeps the follow table duplicate-free. -/
theorem step_follows_nodup (st : State) (op : Op)
    (h : st.follows.Nodup) : (step st op).follows.Nodup := by
  cases op with
  | createPost a t g i =>
      show (createPost st a t g i).1.follows.Nodup
      rw [createPost_follows]; exact h
  | editPost a pid t g i =>
      show (editPost st a pid t g i).1.follows.Nodup
      rw [editPost_follows]; exact h
  | addComment a pid t =>
      show (addComment st a pid t).1.follows.Nodup
      rw [addComment_follows]; exact h
  | follow a au => exact followOp_nodup st a au h
  | unfollow a au => exact unfollowOp_nodup st a au h
  | home =>
      show (getHome st).1.follows.Nodup
      rw [getHome_follows]; exact h
  | clearCache => exact h

/-- Every reachable state has a duplicate-free follow table. -/
theorem run_follows_nodup (ops : List Op) : (run ops).follows.Nodup := by
  suffices h : ∀ st : State, st.follows.Nodup →
      (ops.foldl step st).follows.Nodup from h init List.nodup_nil
  induction ops with
  | nil => intro st h; exact h
  | cons op rest ih => intro st h; exact ih _ (step_follows_nodup st op h)

/-- Claim C8: in every state reachable by any sequence of operations,
each (user, author) pair has at most one follow edge. -/
theorem follow_unique_reachable (ops : List Op) (u a : Nat) :
    ((run ops).follows.filter
        fun f => f.user = u ∧ f.author = a).length ≤ 1 := by
  have hnd := run_follows_nodup ops
  refine length_le_one_of_all_eq _ (Follow.mk u a) (hnd.filter _) ?_
  intro f hf
  have hpf := List.of_mem_filter hf
  exact (follow_match_iff u a f).mp (by simpa using hpf)

/-! ### Claim C4 -/

/-- A record strictly newer than the rest of its scope heads page 1. -/
theorem listing_head_of_newest (st : State) (sc : Scope) (p : Post)
    (l : List Post) (hscope : scopePosts st sc = l ++ [p])
    (hold : ∀ q ∈ l, q.pubDate < p.pubDate) :
    (listing st sc 1).head? = some p := by
  unfold listing
  rw [hscope, show pageSize * (1 - 1) = 0 from rfl, List.drop_zero,
    head?_take_pageSize]
  exact head_sortNewest_append l p hold

/-- Claim C4: after a followed author A publishes a post, that post is
the newest item of the follower's follow feed; the follow feed of a
user who does not follow A is unchanged by A's post; and a user who
follows nobody gets an empty follow feed on every page rather than an
error. -/
theorem follow_feed_spec (st : State) (uF uV A : Nat) (t : String)
    (g : Option Nat) (img : Option String) (ht : ¬ t = "")
    (hclock : ∀ q ∈ st.posts, q.pubDate < st.clock)
    (hF : Follow.mk uF A ∈ st.follows)
    (hV : Follow.mk uV A ∉ st.follows) :
    (listing (createPost st (some A) t g img).1 (Scope.followFeed uF) 1).head?
        = some { id := st.nextId, author := A, text := t, group := g,
                 image := img.map mediaPath, pubDate := st.clock } ∧
    (∀ n, listing (createPost st (some A) t g img).1 (Scope.followFeed uV) n
        = listing st (Scope.followFeed uV) n) ∧
    (∀ w n, (∀ f ∈ st.follows, ¬ f.user = w) →
        listing st (Scope.followFeed w) n = []) := by
  have hstate : (createPost st (some A) t g img).1
      = { st with
          posts := st.posts
            ++ [Post.mk st.nextId A t g (img.map mediaPath) st.clock],
          nextId := st.nextId + 1, clock := st.clock + 1 } := by
    simp [createPost, ht]
  refine ⟨?_, ?_, ?_⟩
  · rw [hstate]
    refine listing_head_of_newest _ _ _
      (st.posts.filter (fun p => st.follows.any
        (fun f => f.user = uF && f.author == p.author))) ?_ ?_
    · show (st.posts ++ [_]).filter _ = _
      rw [List.filter_append]
      congr 1
      refine List.filter_eq_self.mpr ?_
      intro q hq
      rw [List.mem_singleton] at hq
      rw [hq]
      exact List.any_eq_true.mpr ⟨Follow.mk uF A, hF, by simp⟩
    · intro q hq
      exact hclock q (List.mem_filter.mp hq).1
  · intro n
    have hscope : scopePosts (createPost st (some A) t g img).1
        (Scope.followFeed uV) = scopePosts st (Scope.followFeed uV) := by
      rw [hstate]
      show (st.posts ++ [_]).filter _ = _
      rw [List.filter_append]
      have hnil : [Post.mk st.nextId A t g (img.map mediaPath)
            st.clock].filter (fun p => st.follows.any
              (fun f => f.user = uV && f.author == p.author)) = [] := by
        refine List.filter_eq_nil_iff.mpr ?_
        intro q hq
        rw [List.mem_singleton] at hq
        rw [hq]
        intro hc
        obtain ⟨f, hf, hpf⟩ := List.any_eq_true.mp hc
        simp only [Bool.and_eq_true, decide_eq_true_eq, beq_iff_eq] at hpf
        rw [(follow_match_iff uV A f).mp hpf] at hf
        exact hV hf
      rw [hnil, List.append_nil]
      rfl
    unfold listing
    rw [hscope]
  · intro w n hw
    have hscope : scopePosts st (Scope.followFeed w) = [] := by
      refine List.filter_eq_nil_iff.mpr ?_
      intro p hp hc
      obtain ⟨f, hf, hpf⟩ := List.any_eq_true.mp hc
      simp only [Bool.and_eq_true, decide_eq_true_eq, beq_iff_eq] at hpf
      exact hw f hf hpf.1
    unfold listing
    rw [hscope]
    simp [sortNewest]

/-- Witness for C4 at the concrete store `st1`, in which user 2 follows
author 1 and user 3 follows nobody. -/
theorem follow_feed_spec_witness :
    (listing (createPost st1 (some 1) "x" none none).1
        (Scope.followFeed 2) 1).head?
      = some { id := 1, author := 1, text := "x", group := none,
               image := none, pubDate := 1 } :=
  (follow_feed_spec st1 2 3 1 "x" none none (by decide) (by decide)
    (by decide) (by decide)).1

/-! ### Claim C3 -/

/-- A home request with a warm cache serves the cached body and leaves
the store untouched. -/
theorem getHome_of_cache_some (st : State) (body : List Post)
    (h : st.cache = some body) : getHome st = (st, body) := by
  unfold getHome
  rw [h]

/-- A home request with a cold cache renders the page and caches it. -/
theorem getHome_of_cache_none (st : State) (h : st.cache = none) :
    getHome st
      = ({ st with cache := some (renderHome st) }, renderHome st) := by
  unfold getHome
  rw [h]

/-- Claim C3: two requests to the home route with no cache clear (and
no timeout) between them get identical bodies even when a post is
created between them; when the cache is cleared after such a creation,
the next body differs from the first. The store is assumed
well-formed: timestamps below the clock, ids below the id supply, and
the cache either empty or holding the currently rendered page. -/
theorem home_cache_spec (st : State) (u : Nat) (t : String) (g : Option Nat)
    (img : Option String) (ht : ¬ t = "")
    (hclock : ∀ q ∈ st.posts, q.pubDate < st.clock)
    (hid : ∀ q ∈ st.posts, q.id < st.nextId)
    (hcache : st.cache = none ∨ st.cache = some (renderHome st)) :
    (getHome ((createPost (getHome st).1 (some u) t g img).1)).2
        = (getHome st).2 ∧
    (getHome (cacheClear
        ((getHome ((createPost (getHome st).1 (some u) t g img).1)).1))).2
      ≠ (getHome st).2 := by
  set pnew : Post := Post.mk st.nextId u t g (img.map mediaPath) st.clock
    with hpnew
  have hbs1 : getHome st
      = ({ st with cache := some (renderHome st) }, renderHome st) := by
    rcases hcache with h | h
    · exact getHome_of_cache_none st h
    · rw [getHome_of_cache_some st _ h, ← h]
  have hs1 : (getHome st).1 = { st with cache := some (renderHome st) } := by
    rw [hbs1]
  have hb : (getHome st).2 = renderHome st := by
    rw [hbs1]
  have hs2 : (createPost (getHome st).1 (some u) t g img).1
      = { st with
          posts := st.posts ++ [pnew],
          cache := some (renderHome st),
          nextId := st.nextId + 1,
          clock := st.clock + 1 } := by
    rw [hs1]
    simp [createPost, ht]
  have hcach2 : (createPost (getHome st).1 (some u) t g img).1.cache
      = some (renderHome st) := by rw [hs2]
  constructor
  · rw [getHome_of_cache_some _ _ hcach2, hb]
  · have h31 : (getHome ((createPost (getHome st).1 (some u) t g img).1)).1
        = (createPost (getHome st).1 (some u) t g img).1 := by
      rw [getHome_of_cache_some _ _ hcach2]
    rw [h31, hb, hs2]
    have hclear : cacheClear { st with
          posts := st.posts ++ [pnew],
          cache := some (renderHome st),
          nextId := st.nextId + 1,
          clock := st.clock + 1 }
        = { st with
            posts := st.posts ++ [pnew],
            cache := none,
            nextId := st.nextId + 1,
            clock := st.clock + 1 } := rfl
    rw [hclear, getHome_of_cache_none _ rfl]
    show renderHome { st with
        posts := st.posts ++ [pnew],
        cache := none,
        nextId := st.nextId + 1,
        clock := st.clock + 1 } ≠ renderHome st
    intro heq
    have hhead : (renderHome { st with
          posts := st.posts ++ [pnew],
          cache := none,
          nextId := st.nextId + 1,
          clock := st.clock + 1 }).head? = some pnew := by
      refine listing_head_of_newest _ Scope.global _ st.posts rfl ?_
      exact hclock
    have hmem : pnew ∈ renderHome st := by
      rw [← heq]
      exact List.mem_of_mem_head? (Option.mem_def.mpr hhead)
    have hmem2 : pnew ∈ st.posts :=
      mem_scope_of_mem_listing st Scope.global 1 _ hmem
    have := hid _ hmem2
    rw [hpnew] at this
    exact absurd this (Nat.lt_irrefl _)

/-- Witness for C3 at the concrete store `st1`, whose cache is empty. -/
theorem home_cache_spec_witness :
    (getHome ((createPost (getHome st1).1 (some 1) "x" none none).1)).2
      = (getHome st1).2 :=
  (home_cache_spec st1 1 "x" none none (by decide) (by decide) (by decide)
    (Or.inl rfl)).1

end Yatube
